import Mathlib

/-!
Verification of the Discord raid bot (`bot.py`, `raid_data.py`, `main.py`).

The scheduled-event registry (`SCHEDULED_RAIDS`) is a Python dict from raid
id to a record dict; we embed it as an association list with the same
insertion-order semantics as a Python dict (assignment updates an existing
key in place, otherwise appends; `del` removes the key).  The command
handlers' registry mutations and user-visible outcomes are embedded as pure
functions returning an outcome together with the new registry.  Network
effects (HTTP GET responses, reaction attachment results) are supplied by
oracles, one scripted outcome per call the code makes.
-/

namespace RaidBot

/-- One scheduled raid, mirroring the dict built by `prefix_schedule_command`
(bot.py lines 360-367): name, time, description, creator, participants,
created_at. -/
structure RaidRecord where
  name : String
  time : String
  description : String
  creator : String
  participants : List String
  created_at : String
deriving DecidableEq

/-- The in-memory registry `SCHEDULED_RAIDS`: raid id keys to records, in
insertion order, as a Python dict holds them. -/
abbrev Registry := List (String × RaidRecord)

/-- `raid_id in SCHEDULED_RAIDS` / `SCHEDULED_RAIDS[raid_id]`: first (only)
entry with the given key. -/
def lookupRaid : Registry → String → Option RaidRecord
  | [], _ => none
  | p :: ps, rid => if p.1 = rid then some p.2 else lookupRaid ps rid

/-- `SCHEDULED_RAIDS[raid_id] = record`: Python dict assignment replaces an
existing key in place and otherwise appends at the end. -/
def dictInsert : Registry → String → RaidRecord → Registry
  | [], rid, r => [(rid, r)]
  | p :: ps, rid, r => if p.1 = rid then (rid, r) :: ps else p :: dictInsert ps rid r

/-- `del SCHEDULED_RAIDS[raid_id]`. -/
def dictErase : Registry → String → Registry
  | [], _ => []
  | p :: ps, rid => if p.1 = rid then dictErase ps rid else p :: dictErase ps rid

/-- Python `list.remove(x)`: drop the first occurrence of `x`
(`raid["participants"].remove(user_name)`, bot.py line 451). -/
def listRemove : List String → String → List String
  | [], _ => []
  | x :: xs, u => if x = u then xs else x :: listRemove xs u

/-- The user-visible outcome of `prefix_join_command` (bot.py 398-431). -/
inductive JoinOutcome
  | notFound
  | alreadyJoined
  | joined (raidName : String) (time : String) (count : Nat)
deriving DecidableEq

/-- The user-visible outcome of `prefix_leave_command` (bot.py 434-463). -/
inductive LeaveOutcome
  | notFound
  | notJoined
  | left (raidName : String)
deriving DecidableEq

/-- The user-visible outcome of `prefix_cancel_command` (bot.py 466-507). -/
inductive CancelOutcome
  | notFound
  | forbidden
  | cancelled (raidName : String) (participantsNotified : Nat)
deriving DecidableEq

/-- `prefix_schedule_command` (bot.py 343-395): `raidId` is the freshly
generated token `str(uuid.uuid4())[:8]` and `createdAt` the current
timestamp string; the handler stores a new record with an empty participant
list and reports the id back to the user. -/
def prefix_schedule_command (reg : Registry)
    (raidId raidName time descr creator createdAt : String) :
    String × Registry :=
  (raidId, dictInsert reg raidId ⟨raidName, time, descr, creator, [], createdAt⟩)

/-- `prefix_join_command` (bot.py 398-431): missing id is reported as not
found; an identity already present is warned and nothing changes; otherwise
the identity is appended to the participant list. -/
def prefix_join_command (reg : Registry) (raidId user : String) :
    JoinOutcome × Registry :=
  match lookupRaid reg raidId with
  | none => (.notFound, reg)
  | some raid =>
    if user ∈ raid.participants then (.alreadyJoined, reg)
    else
      (.joined raid.name raid.time (raid.participants ++ [user]).length,
        dictInsert reg raidId { raid with participants := raid.participants ++ [user] })

/-- `prefix_leave_command` (bot.py 434-463): missing id is reported as not
found; an identity not present is warned and nothing changes; otherwise the
first occurrence of the identity is removed from the participant list. -/
def prefix_leave_command (reg : Registry) (raidId user : String) :
    LeaveOutcome × Registry :=
  match lookupRaid reg raidId with
  | none => (.notFound, reg)
  | some raid =>
    if user ∉ raid.participants then (.notJoined, reg)
    else
      (.left raid.name,
        dictInsert reg raidId { raid with participants := listRemove raid.participants user })

/-- `prefix_cancel_command` (bot.py 466-507): missing id is reported as not
found; a requester who is neither the stored creator nor an administrator is
refused and nothing changes; otherwise the record is deleted and the prior
participant count reported. -/
def prefix_cancel_command (reg : Registry) (raidId requester : String)
    (isAdmin : Bool) : CancelOutcome × Registry :=
  match lookupRaid reg raidId with
  | none => (.notFound, reg)
  | some raid =>
    if requester ≠ raid.creator ∧ isAdmin = false then (.forbidden, reg)
    else (.cancelled raid.name raid.participants.length, dictErase reg raidId)

/-! ### Presentation builder (`discord.Embed` payloads) -/

/-- One embed field as `embed.add_field(name=..., value=..., inline=...)`
produces it. -/
structure EmbedField where
  name : String
  value : String
  inline : Bool
deriving DecidableEq

/-- The content of a `discord.Embed`: title, description, colour tag, fields
in insertion order, footer text and optional image URL. -/
structure Embed where
  title : String
  description : String
  color : String
  fields : List EmbedField
  footer : String
  image : Option String
deriving DecidableEq

/-- Python `dict.get(key)` on a string-to-string dict such as
`PARTICIPANT_EMOJIS`. -/
def dictGet : List (String × String) → String → Option String
  | [], _ => none
  | p :: ps, key => if p.1 = key then some p.2 else dictGet ps key

/-- One enumeration line of the roster display (bot.py 134-137):
`PARTICIPANT_EMOJIS.get(name, "⚔️")`, then `f"{emoji} **{name}** - *{role}*\n"`. -/
def participantLine (participantEmojis : List (String × String))
    (entry : String × String) : String :=
  (dictGet participantEmojis entry.1).getD "⚔️" ++ " **" ++ entry.1 ++ "** - *" ++
    entry.2 ++ "*\n"

/-- `create_raid_embed` (bot.py 117-146), parametric in the startup
configuration `RAID_DATA` (ordered name/role pairs) and `PARTICIPANT_EMOJIS`
(the per-name emoji override map, absent from the `raid_data.py` in the
repository and read here as a parameter). -/
def create_raid_embed (raidData participantEmojis : List (String × String)) : Embed :=
  let fields :=
    if raidData = [] then
      [⟨"No Participants",
        "No raid participants configured. Please check raid_data.py", false⟩]
    else
      [⟨"Participants",
        raidData.foldl (fun acc entry => acc ++ participantLine participantEmojis entry) "",
        false⟩]
  { title := "🗡️ Raid Participants"
    description := "Ready for battle!"
    color := "red"
    fields := fields
    footer := "Total participants: " ++ toString raidData.length
    image := none }

/-- The participant summary of one raid in the `!raids` listing
(bot.py 527-531): the count, then up to the first three names, then a
`(+N more)` suffix when more than three participate. -/
def participants_text (participants : List String) : String :=
  let t := toString participants.length ++ " participants"
  if participants = [] then t
  else
    let t := t ++ ": " ++ String.intercalate ", " (participants.take 3)
    if 3 < participants.length then
      t ++ " (+" ++ toString (participants.length - 3) ++ " more)"
    else t

/-- One field of the `!raids` listing (bot.py 533-537). -/
def raidListField (raidId : String) (raid : RaidRecord) : EmbedField :=
  ⟨"🗡️ " ++ raid.name ++ " (ID: " ++ raidId ++ ")",
    "**Time:** " ++ raid.time ++ "\n**Creator:** " ++ raid.creator ++
      "\n**Participants:** " ++ participants_text raid.participants,
    false⟩

/-- `prefix_raids_command` (bot.py 510-544): the embed it sends. -/
def prefix_raids_command (reg : Registry) : Embed :=
  if reg = [] then
    ⟨"📅 Scheduled Raids", "No raids currently scheduled.", "blue", [], "", none⟩
  else
    ⟨"📅 Scheduled Raids", "", "blue", reg.map (fun p => raidListField p.1 p.2),
      "Use !join <raid_id> to participate", none⟩

/-! ### The two invocation surfaces: the embeds each handler builds -/

/-- The embed of `slash_raid_command` (bot.py 179-201): it calls
`create_raid_embed`. -/
def slash_raid_embed (raidData participantEmojis : List (String × String)) : Embed :=
  create_raid_embed raidData participantEmojis

/-- The embed of `prefix_raid_command` (bot.py 306-323): it calls
`create_raid_embed`. -/
def prefix_raid_embed (raidData participantEmojis : List (String × String)) : Embed :=
  create_raid_embed raidData participantEmojis

/-- The embed of `slash_wipe_command` (bot.py 227-243). -/
def slash_wipe_embed : Embed :=
  ⟨"🗓️ Wipe Schedule",
    "US 2x Quad - Pondělí a pátek 20:00 - connect us2xq.warbandits.gg\nUS 2x Max5 - Úterý a sobota 20:00 - connect us2xm5.warbandits.gg\nUS 2x Trio - Neděle a čtvrtek 20:00 - connect us2xt.warbandits.gg",
    "blue", [], "", none⟩

/-- The embed of `prefix_wipe_command` (bot.py 547-561). -/
def prefix_wipe_embed : Embed :=
  ⟨"🗓️ Wipe Schedule",
    "US 2x Quad - Pondělí a pátek 20:00 - connect us2xq.warbandits.gg\nUS 2x Max5 - Úterý a sobota 20:00 - connect us2xm5.warbandits.gg\nUS 2x Trio - Neděle a čtvrtek 20:00 - connect us2xt.warbandits.gg",
    "blue", [], "", none⟩

/-- The embed of `slash_cotr_command` (bot.py 251-266). -/
def slash_cotr_embed : Embed :=
  ⟨"📖 COTR Guide",
    "https://docs.google.com/document/d/1BXhyJs94A_Hh1RGt3ptsjJbKjzDsRGABtCC9HSM-m7c/edit?usp=sharing",
    "green", [], "", none⟩

/-- The embed of `prefix_cotr_command` (bot.py 568-582). -/
def prefix_cotr_embed : Embed :=
  ⟨"📖 Clash of the Rust Guidelines",
    "https://docs.google.com/document/d/1BXhyJs94A_Hh1RGt3ptsjJbKjzDsRGABtCC9HSM-m7c/edit?usp=sharing",
    "green", [], "", none⟩

/-- The success embed of `slash_susa_command` (bot.py 286-292). -/
def slash_susa_embed (dogUrl : String) : Embed :=
  ⟨"🐕 Random Dog Meme", "", "orange", [], "", some dogUrl⟩

/-- The success embed of `prefix_susa_command` (bot.py 601-607). -/
def prefix_susa_embed (dogUrl : String) : Embed :=
  ⟨"🐕 Random Dog Meme", "", "orange", [], "", some dogUrl⟩

/-- The failure text of `slash_susa_command` (bot.py 295). -/
def slash_susa_failure_text : String :=
  "❌ Sorry, couldn't fetch a dog gif right now. Try again!"

/-- The failure text of `prefix_susa_command` (bot.py 610). -/
def prefix_susa_failure_text : String :=
  "❌ Sorry, couldn't fetch a dog gif right now. Try again!"

/-! ### Reaction decorator (`add_reactions_to_message`, bot.py 149-173)

Each `message.add_reaction(emoji)` call may raise; the oracle scripts, per
attempt index, whether the call succeeds or which exception it raises. -/

/-- What an attempt to attach one reaction can raise:
`discord.HTTPException` or any other exception. -/
inductive ReactionError
  | httpError (msg : String)
  | otherError (msg : String)
deriving DecidableEq

/-- One `message.add_reaction` call: the oracle says whether attempt `i`
raises. -/
def add_reaction (oracle : Nat → Option ReactionError) (i : Nat) :
    Except ReactionError Unit :=
  match oracle i with
  | some e => .error e
  | none => .ok ()

/-- The `for emoji in REACTION_EMOJIS` loop (bot.py 159-167): each attempt's
exception is caught, logged and skipped, and the loop moves on.  The result
records each emoji with whether its attachment succeeded; `.error` would
mean an exception escaped an iteration. -/
def add_reactions_loop (oracle : Nat → Option ReactionError) :
    Nat → List String → Except ReactionError (List (String × Bool))
  | _, [] => .ok []
  | i, emoji :: rest =>
    let attempt : String × Bool :=
      match add_reaction oracle i with
      | .ok _ => (emoji, true)
      | .error _ => (emoji, false)
    match add_reactions_loop oracle (i + 1) rest with
    | .ok attempts => .ok (attempt :: attempts)
    | .error e => .error e

/-- `add_reactions_to_message` (bot.py 149-173): the loop wrapped in the
outer `try`/`except` that logs and swallows anything that escapes, so the
caller never sees an exception. -/
def add_reactions_to_message (emojis : List String)
    (oracle : Nat → Option ReactionError) : Except String (List (String × Bool)) :=
  match add_reactions_loop oracle 0 emojis with
  | .ok attempts => .ok attempts
  | .error _ => .ok []

/-! ### External image fetcher (`get_random_dog_gif`, bot.py 19-62)

Each `session.get` consumes the next scripted outcome of an oracle list; an
exhausted oracle stands for a request that raises. -/

/-- The JSON fields the two parsers read: `url` (random.dog), `message` and
`status` (dog.ceo).  A missing key is `none`. -/
structure DogJson where
  url : Option String
  message : Option String
  status : Option String
deriving DecidableEq

/-- The two endpoints of the `apis` list (bot.py 21-30). -/
inductive DogApi
  | randomDog
  | dogCeo
deriving DecidableEq

/-- One `session.get`: an exception (timeout, transport error), or a
response with an HTTP status and a JSON body. -/
inductive GetOutcome
  | exn
  | resp (status : Nat) (data : DogJson)
deriving DecidableEq

/-- `url.endswith(('.gif', '.mp4', '.webm'))`. -/
def acceptedExtension (u : String) : Bool :=
  List.isSuffixOf ".gif".data u.data || List.isSuffixOf ".mp4".data u.data ||
    List.isSuffixOf ".webm".data u.data

/-- The random.dog parser (bot.py 24): the payload's `url` only when it is
truthy and ends in an accepted animated extension, else `None`. -/
def parse_random_dog (data : DogJson) : Option String :=
  match data.url with
  | some u => if u ≠ "" ∧ acceptedExtension u = true then some u else none
  | none => none

/-- The dog.ceo parser (bot.py 28): the payload's `message` when `status`
is `"success"`, else `None`. -/
def parse_dog_ceo (data : DogJson) : Option String :=
  if data.status = some "success" then data.message else none

/-- `api['parser']`. -/
def apiParse : DogApi → DogJson → Option String
  | .randomDog => parse_random_dog
  | .dogCeo => parse_dog_ceo

/-- How the retry loop exits: `ret r` is `return result` (`r` may be `None`
when the loop reassigned `result` on its last pass), `caught` an exception
that the per-api `except` block catches, moving on to the next api. -/
inductive RetryExit
  | ret (r : Option String)
  | caught

/-- The `for attempt in range(3)` retry loop of the random.dog branch
(bot.py 46-55), with the current value of the mutable `result` variable and
the remaining scripted GET outcomes.  Calling `.endswith` on a `None`
`result` is an `AttributeError`, caught by the per-api handler; a re-query
reassigns `result` to the retry response's parse when that response is 200. -/
def retry_loop : Nat → Option String → List GetOutcome → RetryExit × List GetOutcome
  | 0, result, oracle => (.ret result, oracle)
  | _ + 1, none, oracle => (.caught, oracle)
  | fuel + 1, some r, oracle =>
    if acceptedExtension r = true then (.ret (some r), oracle)
    else
      match oracle with
      | [] => (.caught, [])
      | .exn :: rest => (.caught, rest)
      | .resp status data :: rest =>
        if status = 200 then
          match parse_random_dog data with
          | some u =>
            if u ≠ "" ∧ acceptedExtension u = true then (.ret (some u), rest)
            else retry_loop fuel (some u) rest
          | none => retry_loop fuel none rest
        else retry_loop fuel (some r) rest

/-- One pass of the `for api in apis` loop body (bot.py 36-59) for one api:
`some v` means `get_random_dog_gif` returns `v` here, `none` that control
falls through to the next api (non-200 status, falsy parse, or a caught
exception); the second component is the unconsumed remainder of the oracle. -/
def try_api (api : DogApi) (oracle : List GetOutcome) :
    Option (Option String) × List GetOutcome :=
  match oracle with
  | [] => (none, [])
  | .exn :: rest => (none, rest)
  | .resp status data :: rest =>
    if status = 200 then
      match apiParse api data with
      | some r =>
        if r ≠ "" then
          match api with
          | .randomDog =>
            match retry_loop 3 (some r) rest with
            | (.ret v, rest') => (some v, rest')
            | (.caught, rest') => (none, rest')
          | .dogCeo => (some (some r), rest)
        else (none, rest)
      | none => (none, rest)
    else (none, rest)

/-- `get_random_dog_gif` (bot.py 19-62) over a given (post-shuffle) api order
and scripted GET outcomes: the first api whose pass returns wins; when every
api falls through, the function returns `None` (bot.py 62). -/
def get_random_dog_gif : List DogApi → List GetOutcome → Option String
  | [], _ => none
  | api :: apis, oracle =>
    match try_api api oracle with
    | (some v, _) => v
    | (none, rest) => get_random_dog_gif apis rest

/-- A scripted GET outcome neither api can turn into a truthy parse: an
exception, a non-200 status, or a body both parsers reduce to `None` or an
empty string. -/
def failingOutcome : GetOutcome → Bool
  | .exn => true
  | .resp status data =>
    decide (status ≠ 200) ||
      ((match parse_random_dog data with
        | some u => decide (u = "")
        | none => true) &&
       (match parse_dog_ceo data with
        | some u => decide (u = "")
        | none => true))

/-! ### Replay of join/leave sequences against set semantics -/

/-- One user-command step against a scheduled raid: `!join id` or
`!leave id` by some identity. -/
inductive RaidOp
  | join (user : String)
  | leave (user : String)

/-- The registry after one join or leave command. -/
def applyRaidOp (reg : Registry) (raidId : String) : RaidOp → Registry
  | .join u => (prefix_join_command reg raidId u).2
  | .leave u => (prefix_leave_command reg raidId u).2

/-- The registry after a whole sequence of join/leave commands on one raid. -/
def replayOps (reg : Registry) (raidId : String) (ops : List RaidOp) : Registry :=
  ops.foldl (fun r op => applyRaidOp r raidId op) reg

/-- The mathematical set semantics of one step: join inserts, leave erases. -/
def setApply (s : Finset String) : RaidOp → Finset String
  | .join u => insert u s
  | .leave u => s.erase u

/-- The set obtained by replaying a sequence of operations from the empty
membership set. -/
def setReplay (ops : List RaidOp) : Finset String :=
  ops.foldl setApply ∅

/-- The participant list a registry stores for a raid id (empty when the id
is absent). -/
def participantsOf (reg : Registry) (raidId : String) : List String :=
  match lookupRaid reg raidId with
  | some raid => raid.participants
  | none => []

/-! ### Concrete data for witnesses and counterexamples -/

/-- A record as `!schedule "Night Run" "20:00"` by alice stores it. -/
def nightRun : RaidRecord := ⟨"Night Run", "20:00", "", "alice", [], "2024-01-01 20:00"⟩

/-- A one-raid registry whose raid has id `ab12cd34`. -/
def demoReg : Registry := [("ab12cd34", nightRun)]

/-- `nightRun` with bob already participating. -/
def nightRunBob : RaidRecord :=
  ⟨"Night Run", "20:00", "", "alice", ["bob"], "2024-01-01 20:00"⟩

/-- A one-raid registry holding `nightRunBob` under id `x1`. -/
def regBob : Registry := [("x1", nightRunBob)]

/-- A join/leave sequence with a duplicate join and a leave of an absent
identity. -/
def demoOps : List RaidOp :=
  [.join "bob", .join "carol", .join "bob", .leave "dave", .leave "bob"]

/-- A random.dog payload whose url is a still image (`.jpg`). -/
def jpgJson : DogJson := ⟨some "https://random.dog/a.jpg", none, none⟩

/-- A random.dog payload whose url is an animated gif. -/
def gifJson : DogJson := ⟨some "https://random.dog/b.gif", none, none⟩

/-- Scripted GETs: random.dog answers 200 with a `.jpg` url, and the next
request (whoever makes it) would answer 200 with a `.gif` url. -/
def jpgThenGifOracle : List GetOutcome := [.resp 200 jpgJson, .resp 200 gifJson]

/-- A random.dog payload for the C10 witness, distinct from the C4 data. -/
def webmJson : DogJson := ⟨some "https://random.dog/c.webm", none, none⟩

/-- Scripted GETs that all fail: a timeout, a 404, and a 200 whose body
neither parser accepts. -/
def allFailOracle : List GetOutcome :=
  [.exn, .resp 404 gifJson, .resp 200 ⟨some "https://random.dog/d.png", none, none⟩,
    .resp 200 ⟨none, some "https://images.dog.ceo/e.jpg", some "error"⟩]

/-! ### Registry lemmas -/

theorem lookupRaid_dictInsert_self (reg : Registry) (rid : String) (r : RaidRecord) :
    lookupRaid (dictInsert reg rid r) rid = some r := by
  induction reg with
  | nil => simp [dictInsert, lookupRaid]
  | cons p ps ih =>
    by_cases h : p.1 = rid
    · simp [dictInsert, h, lookupRaid]
    · simp [dictInsert, h, lookupRaid, ih]

theorem lookupRaid_dictInsert_ne (reg : Registry) (rid other : String) (r : RaidRecord)
    (h : other ≠ rid) :
    lookupRaid (dictInsert reg rid r) other = lookupRaid reg other := by
  induction reg with
  | nil => simp [dictInsert, lookupRaid, Ne.symm h]
  | cons p ps ih =>
    by_cases hp : p.1 = rid
    · have hpo : ¬p.1 = other := by rw [hp]; exact Ne.symm h
      simp [dictInsert, hp, lookupRaid, Ne.symm h, hpo]
    · simp only [dictInsert, if_neg hp, lookupRaid, ih]

theorem dictInsert_fresh (reg : Registry) (rid : String) (r : RaidRecord)
    (h : lookupRaid reg rid = none) : dictInsert reg rid r = reg ++ [(rid, r)] := by
  induction reg with
  | nil => rfl
  | cons p ps ih =>
    simp only [lookupRaid] at h
    by_cases hp : p.1 = rid
    · rw [if_pos hp] at h; exact absurd h (by simp)
    · rw [if_neg hp] at h
      simp [dictInsert, hp, ih h]

theorem lookupRaid_dictErase_self (reg : Registry) (rid : String) :
    lookupRaid (dictErase reg rid) rid = none := by
  induction reg with
  | nil => rfl
  | cons p ps ih =>
    by_cases hp : p.1 = rid
    · simp [dictErase, hp, ih]
    · simp [dictErase, hp, lookupRaid, ih]

theorem lookupRaid_dictErase_ne (reg : Registry) (rid other : String) (h : other ≠ rid) :
    lookupRaid (dictErase reg rid) other = lookupRaid reg other := by
  induction reg with
  | nil => rfl
  | cons p ps ih =>
    by_cases hp : p.1 = rid
    · have hpo : ¬p.1 = other := by rw [hp]; exact Ne.symm h
      simp [dictErase, hp, lookupRaid, hpo, Ne.symm h, ih]
    · simp [dictErase, hp, lookupRaid, ih]

/-! ### C1: schedule creates one fresh record -/

/-- C1 (counterexample): the generated token `str(uuid.uuid4())[:8]` is not
checked against the registry, so on the (accepted-risk) run where it equals
an existing key the handler returns an id that is already present and
overwrites that record: the registry does not grow by one. -/
theorem c1_counterexample_id_collision :
    (lookupRaid demoReg "ab12cd34").isSome = true ∧
    (prefix_schedule_command demoReg "ab12cd34" "Other Raid" "21:00" "" "bob"
      "2024-01-02 09:00").1 = "ab12cd34" ∧
    (prefix_schedule_command demoReg "ab12cd34" "Other Raid" "21:00" "" "bob"
      "2024-01-02 09:00").2.length = demoReg.length := by
  refine ⟨rfl, rfl, rfl⟩

/-- C1 (amended): whenever the generated token is not already a key of the
registry, `prefix_schedule_command` returns that token, the registry gains
exactly one record, the new record has an empty participant list, and all
other keys are untouched. -/
theorem c1_schedule_fresh_id (reg : Registry)
    (rid raidName time descr creator createdAt : String)
    (hfresh : lookupRaid reg rid = none) :
    (prefix_schedule_command reg rid raidName time descr creator createdAt).1 = rid ∧
    lookupRaid (prefix_schedule_command reg rid raidName time descr creator createdAt).2
      rid = some ⟨raidName, time, descr, creator, [], createdAt⟩ ∧
    (prefix_schedule_command reg rid raidName time descr creator createdAt).2.length =
      reg.length + 1 ∧
    ∀ other, other ≠ rid →
      lookupRaid (prefix_schedule_command reg rid raidName time descr creator createdAt).2
        other = lookupRaid reg other := by
  refine ⟨rfl, lookupRaid_dictInsert_self .., ?_,
    fun other ho => lookupRaid_dictInsert_ne reg rid other _ ho⟩
  show (dictInsert reg rid _).length = reg.length + 1
  rw [dictInsert_fresh reg rid _ hfresh]
  simp

/-- C1 witness: scheduling into the empty registry with a fresh token. -/
theorem c1_schedule_fresh_id_witness :
    lookupRaid ([] : Registry) "ab12cd34" = none ∧
    (prefix_schedule_command [] "ab12cd34" "Night Run" "20:00" "" "alice"
      "2024-01-01 20:00").2.length = ([] : Registry).length + 1 ∧
    lookupRaid (prefix_schedule_command [] "ab12cd34" "Night Run" "20:00" "" "alice"
      "2024-01-01 20:00").2 "ab12cd34" =
      some ⟨"Night Run", "20:00", "", "alice", [], "2024-01-01 20:00"⟩ := by
  have h := c1_schedule_fresh_id [] "ab12cd34" "Night Run" "20:00" "" "alice"
    "2024-01-01 20:00" rfl
  exact ⟨rfl, h.2.2.1, h.2.1⟩

/-! ### C9: join on a missing id -/

/-- C9: a join request for an id not present in the registry signals
`notFound` and returns the registry unchanged: no record is created or
modified. -/
theorem c9_join_not_found (reg : Registry) (raidId user : String)
    (h : lookupRaid reg raidId = none) :
    prefix_join_command reg raidId user = (.notFound, reg) := by
  unfold prefix_join_command
  rw [h]

/-- C9 witness: joining the empty registry under an unknown id. -/
theorem c9_join_not_found_witness :
    lookupRaid ([] : Registry) "zz99" = none ∧
    prefix_join_command [] "zz99" "bob" = (.notFound, []) :=
  ⟨rfl, c9_join_not_found [] "zz99" "bob" rfl⟩

/-! ### C5: cancel authorisation -/

/-- C5: for an id present in the registry, cancellation by a requester who
is neither the stored creator nor an administrator signals `forbidden` and
leaves the registry unchanged; cancellation by the creator or an
administrator reports the prior participant count, removes the record, and
touches no other key. -/
theorem c5_cancel_auth (reg : Registry) (raidId requester : String) (isAdmin : Bool)
    (raid : RaidRecord) (h : lookupRaid reg raidId = some raid) :
    (requester ≠ raid.creator ∧ isAdmin = false →
      prefix_cancel_command reg raidId requester isAdmin = (.forbidden, reg)) ∧
    (requester = raid.creator ∨ isAdmin = true →
      prefix_cancel_command reg raidId requester isAdmin =
        (.cancelled raid.name raid.participants.length, dictErase reg raidId) ∧
      lookupRaid (prefix_cancel_command reg raidId requester isAdmin).2 raidId = none ∧
      ∀ other, other ≠ raidId →
        lookupRaid (prefix_cancel_command reg raidId requester isAdmin).2 other =
          lookupRaid reg other) := by
  simp only [prefix_cancel_command, h]
  constructor
  · intro hforb
    rw [if_pos hforb]
  · intro hok
    have hcond : ¬(requester ≠ raid.creator ∧ isAdmin = false) := by
      rcases hok with h1 | h1
      · exact fun hc => hc.1 h1
      · intro hc; rw [h1] at hc; exact absurd hc.2 (by decide)
    rw [if_neg hcond]
    exact ⟨rfl, lookupRaid_dictErase_self reg raidId,
      fun other ho => lookupRaid_dictErase_ne reg raidId other ho⟩

/-- C5 witness: on a one-raid registry created by alice, mallory's cancel is
forbidden and mutates nothing, while alice's cancel removes the record and
reports the one prior participant. -/
theorem c5_cancel_auth_witness :
    lookupRaid regBob "x1" = some nightRunBob ∧
    prefix_cancel_command regBob "x1" "mallory" false = (.forbidden, regBob) ∧
    prefix_cancel_command regBob "x1" "alice" false =
      (.cancelled "Night Run" 1, dictErase regBob "x1") := by
  refine ⟨rfl, ?_, ?_⟩
  · exact (c5_cancel_auth regBob "x1" "mallory" false nightRunBob rfl).1 ⟨by decide, rfl⟩
  · have h := ((c5_cancel_auth regBob "x1" "alice" false nightRunBob rfl).2 (Or.inl rfl)).1
    exact h.trans (by decide)

/-! ### C2: join/leave replay agrees with set semantics -/

theorem mem_of_mem_listRemove (l : List String) (u x : String)
    (h : x ∈ listRemove l u) : x ∈ l := by
  induction l with
  | nil => simp [listRemove] at h
  | cons a l ih =>
    by_cases ha : a = u
    · rw [listRemove, if_pos ha] at h
      exact List.mem_cons_of_mem a h
    · rw [listRemove, if_neg ha] at h
      rcases List.mem_cons.mp h with rfl | hx
      · exact List.mem_cons_self ..
      · exact List.mem_cons_of_mem a (ih hx)

theorem mem_listRemove_iff (l : List String) (u x : String) (hnd : l.Nodup) :
    x ∈ listRemove l u ↔ x ∈ l ∧ x ≠ u := by
  induction l with
  | nil => simp [listRemove]
  | cons a l ih =>
    have hnd' : l.Nodup := hnd.of_cons
    have hau : a ∉ l := (List.nodup_cons.mp hnd).1
    by_cases ha : a = u
    · subst ha
      rw [listRemove, if_pos rfl]
      constructor
      · intro hx
        exact ⟨List.mem_cons_of_mem a hx, fun he => hau (he ▸ hx)⟩
      · rintro ⟨hx, hne⟩
        rcases List.mem_cons.mp hx with rfl | hx
        · exact absurd rfl hne
        · exact hx
    · rw [listRemove, if_neg ha]
      rw [List.mem_cons, List.mem_cons, ih hnd']
      constructor
      · rintro (rfl | ⟨hx, hne⟩)
        · exact ⟨Or.inl rfl, fun he => ha he⟩
        · exact ⟨Or.inr hx, hne⟩
      · rintro ⟨rfl | hx, hne⟩
        · exact Or.inl rfl
        · exact Or.inr ⟨hx, hne⟩

theorem nodup_listRemove (l : List String) (u : String) (hnd : l.Nodup) :
    (listRemove l u).Nodup := by
  induction l with
  | nil => simp [listRemove]
  | cons a l ih =>
    have hnd' : l.Nodup := hnd.of_cons
    have hau : a ∉ l := (List.nodup_cons.mp hnd).1
    by_cases ha : a = u
    · rw [listRemove, if_pos ha]; exact hnd'
    · rw [listRemove, if_neg ha]
      exact List.nodup_cons.mpr ⟨fun hx => hau (mem_of_mem_listRemove l u a hx), ih hnd'⟩

/-- Replaying join/leave operations preserves the record's presence, keeps
its participant list duplicate-free, and tracks the set semantics of the
same operation sequence. -/
theorem replay_preserves_membership (raidId : String) (ops : List RaidOp) :
    ∀ (reg : Registry) (raid : RaidRecord) (s : Finset String),
      lookupRaid reg raidId = some raid → raid.participants.Nodup →
      (∀ x, x ∈ raid.participants ↔ x ∈ s) →
      ∃ raid', lookupRaid (replayOps reg raidId ops) raidId = some raid' ∧
        raid'.participants.Nodup ∧
        ∀ x, x ∈ raid'.participants ↔ x ∈ ops.foldl setApply s := by
  induction ops with
  | nil => intro reg raid s h hnd hmem; exact ⟨raid, h, hnd, hmem⟩
  | cons op ops ih =>
    intro reg raid s h hnd hmem
    show ∃ raid', lookupRaid (replayOps (applyRaidOp reg raidId op) raidId ops) raidId =
        some raid' ∧ raid'.participants.Nodup ∧
        ∀ x, x ∈ raid'.participants ↔ x ∈ ops.foldl setApply (setApply s op)
    cases op with
    | join u =>
      by_cases hu : u ∈ raid.participants
      · have happ : applyRaidOp reg raidId (.join u) = reg := by
          simp [applyRaidOp, prefix_join_command, h, hu]
        rw [happ]
        refine ih reg raid (insert u s) h hnd fun x => ?_
        rw [Finset.mem_insert]
        constructor
        · intro hx; exact Or.inr ((hmem x).1 hx)
        · rintro (rfl | hx)
          · exact hu
          · exact (hmem x).2 hx
      · have happ : applyRaidOp reg raidId (.join u) =
            dictInsert reg raidId { raid with participants := raid.participants ++ [u] } := by
          simp [applyRaidOp, prefix_join_command, h, hu]
        rw [happ]
        refine ih _ _ (insert u s) (lookupRaid_dictInsert_self ..) ?_ fun x => ?_
        · show (raid.participants ++ [u]).Nodup
          simp [List.nodup_append, hnd, hu]
        · show x ∈ raid.participants ++ [u] ↔ x ∈ insert u s
          rw [List.mem_append, List.mem_singleton, Finset.mem_insert]
          constructor
          · rintro (hx | rfl)
            · exact Or.inr ((hmem x).1 hx)
            · exact Or.inl rfl
          · rintro (rfl | hx)
            · exact Or.inr rfl
            · exact Or.inl ((hmem x).2 hx)
    | leave u =>
      by_cases hu : u ∈ raid.participants
      · have happ : applyRaidOp reg raidId (.leave u) =
            dictInsert reg raidId { raid with participants := listRemove raid.participants u } := by
          simp [applyRaidOp, prefix_leave_command, h, hu]
        rw [happ]
        refine ih _ _ (s.erase u) (lookupRaid_dictInsert_self ..)
          (nodup_listRemove _ _ hnd) fun x => ?_
        show x ∈ listRemove raid.participants u ↔ x ∈ s.erase u
        rw [mem_listRemove_iff _ _ _ hnd, Finset.mem_erase]
        constructor
        · rintro ⟨hx, hne⟩; exact ⟨hne, (hmem x).1 hx⟩
        · rintro ⟨hne, hx⟩; exact ⟨(hmem x).2 hx, hne⟩
      · have happ : applyRaidOp reg raidId (.leave u) = reg := by
          simp [applyRaidOp, prefix_leave_command, h, hu]
        rw [happ]
        refine ih reg raid (s.erase u) h hnd fun x => ?_
        rw [Finset.mem_erase]
        constructor
        · intro hx
          refine ⟨?_, (hmem x).1 hx⟩
          rintro rfl; exact hu hx
        · rintro ⟨hne, hx⟩; exact (hmem x).2 hx

/-- C2: for a freshly created event, after any finite sequence of join and
leave operations the stored participant list, viewed as a set, equals the
set-semantics replay of the same sequence (and stays duplicate-free); and
each single step behaves as set insertion/removal with the documented
signals: join of a present identity signals `alreadyJoined` and mutates
nothing, join of an absent identity appends it; leave of an absent identity
signals `notJoined` and mutates nothing, leave of a present identity removes
it. -/
theorem c2_join_leave_set_semantics (reg : Registry)
    (rid raidName time descr creator createdAt : String) (ops : List RaidOp)
    (reg₁ : Registry) (raid₁ : RaidRecord) (u : String)
    (hfresh : lookupRaid reg rid = none)
    (h₁ : lookupRaid reg₁ rid = some raid₁) :
    (participantsOf (replayOps
      (prefix_schedule_command reg rid raidName time descr creator createdAt).2
      rid ops) rid).Nodup ∧
    (participantsOf (replayOps
      (prefix_schedule_command reg rid raidName time descr creator createdAt).2
      rid ops) rid).toFinset = setReplay ops ∧
    prefix_join_command reg₁ rid u =
      (if u ∈ raid₁.participants then (.alreadyJoined, reg₁)
       else
        (.joined raid₁.name raid₁.time (raid₁.participants ++ [u]).length,
          dictInsert reg₁ rid { raid₁ with participants := raid₁.participants ++ [u] })) ∧
    prefix_leave_command reg₁ rid u =
      (if u ∈ raid₁.participants then
        (.left raid₁.name,
          dictInsert reg₁ rid { raid₁ with participants := listRemove raid₁.participants u })
       else (.notJoined, reg₁)) := by
  obtain ⟨raid', hl, hnd, hmem⟩ :=
    replay_preserves_membership rid ops
      (prefix_schedule_command reg rid raidName time descr creator createdAt).2
      ⟨raidName, time, descr, creator, [], createdAt⟩ ∅
      (lookupRaid_dictInsert_self ..) (by simp) (by simp)
  refine ⟨?_, ?_, ?_, ?_⟩
  · simp only [participantsOf, hl]
    exact hnd
  · simp only [participantsOf, hl]
    exact Finset.ext fun x => by rw [List.mem_toFinset]; exact hmem x
  · by_cases hu : u ∈ raid₁.participants
    · rw [if_pos hu]; simp [prefix_join_command, h₁, hu]
    · rw [if_neg hu]; simp [prefix_join_command, h₁, hu]
  · by_cases hu : u ∈ raid₁.participants
    · rw [if_pos hu]; simp [prefix_leave_command, h₁, hu]
    · rw [if_neg hu]; simp [prefix_leave_command, h₁, hu]

/-- C2 witness: a concrete replay with a duplicate join and a leave of an
absent identity, checked against the set semantics. -/
theorem c2_join_leave_set_semantics_witness :
    lookupRaid ([] : Registry) "x1" = none ∧
    lookupRaid regBob "x1" = some nightRunBob ∧
    (participantsOf (replayOps
      (prefix_schedule_command [] "x1" "Night Run" "20:00" "" "alice"
        "2024-01-01 20:00").2 "x1" demoOps) "x1").toFinset = setReplay demoOps ∧
    participantsOf (replayOps
      (prefix_schedule_command [] "x1" "Night Run" "20:00" "" "alice"
        "2024-01-01 20:00").2 "x1" demoOps) "x1" = ["carol"] := by
  refine ⟨rfl, rfl, ?_, by decide⟩
  exact (c2_join_leave_set_semantics [] "x1" "Night Run" "20:00" "" "alice"
    "2024-01-01 20:00" demoOps regBob nightRunBob "bob" rfl rfl).2.1

/-! ### C6: the roster display -/

/-- The roster loop's string accumulation (bot.py 133-137) is the
concatenation of one `participantLine` per roster entry. -/
theorem roster_foldl_eq_join (em rd : List (String × String)) :
    rd.foldl (fun acc entry => acc ++ participantLine em entry) "" =
      String.join (rd.map (participantLine em)) := by
  simp only [String.join, List.foldl_map]

/-- C6: with an empty roster, `create_raid_embed` renders the single
"no participants" field and the footer `Total participants: 0`; with a
non-empty roster of N entries it renders one Participants field whose text
is the concatenation of exactly N enumeration lines in roster insertion
order and the footer `Total participants: N`, each line using the
per-participant emoji override, or the default glyph when no override
exists. -/
theorem c6_roster_display (em rd : List (String × String)) (hne : rd ≠ []) :
    (create_raid_embed [] em).fields =
      [⟨"No Participants",
        "No raid participants configured. Please check raid_data.py", false⟩] ∧
    (create_raid_embed [] em).footer = "Total participants: 0" ∧
    (create_raid_embed rd em).fields =
      [⟨"Participants", String.join (rd.map (participantLine em)), false⟩] ∧
    (rd.map (participantLine em)).length = rd.length ∧
    (create_raid_embed rd em).footer = "Total participants: " ++ toString rd.length ∧
    (∀ n r, dictGet em n = none →
      participantLine em (n, r) = "⚔️" ++ " **" ++ n ++ "** - *" ++ r ++ "*\n") ∧
    (∀ n r e, dictGet em n = some e →
      participantLine em (n, r) = e ++ " **" ++ n ++ "** - *" ++ r ++ "*\n") := by
  refine ⟨rfl, rfl, ?_, List.length_map .., rfl, ?_, ?_⟩
  · simp only [create_raid_embed, if_neg hne]
    rw [roster_foldl_eq_join]
  · intro n r hn; simp [participantLine, hn]
  · intro n r e hn; simp [participantLine, hn]

/-- C6 witness: a two-entry roster with one emoji override, rendered
concretely. -/
theorem c6_roster_display_witness :
    (([("Alex", "Tank"), ("Bo", "Healer")] : List (String × String)) ≠ []) ∧
    (create_raid_embed [("Alex", "Tank"), ("Bo", "Healer")] [("Alex", "🔥")]).fields =
      [⟨"Participants",
        String.join ([("Alex", "Tank"), ("Bo", "Healer")].map
          (participantLine [("Alex", "🔥")])), false⟩] ∧
    (create_raid_embed [("Alex", "Tank"), ("Bo", "Healer")] [("Alex", "🔥")]).footer =
      "Total participants: 2" ∧
    String.join ([("Alex", "Tank"), ("Bo", "Healer")].map
        (participantLine [("Alex", "🔥")])) =
      "🔥 **Alex** - *Tank*\n⚔️ **Bo** - *Healer*\n" := by
  have h := c6_roster_display [("Alex", "🔥")] [("Alex", "Tank"), ("Bo", "Healer")]
    (by decide)
  exact ⟨by decide, h.2.2.1, by decide, by decide⟩

/-! ### C7: participant summary in the event list -/

/-- C7: for an event with more than three participants, the `!raids`
summary names exactly the first three identities in list order and appends
a `(+N more)` suffix, where N is the participant count minus three. -/
theorem c7_participants_summary (l : List String) (h : 3 < l.length) :
    participants_text l =
      toString l.length ++ " participants" ++ ": " ++
        String.intercalate ", " (l.take 3) ++ " (+" ++ toString (l.length - 3) ++
        " more)" ∧
    (l.take 3).length = 3 ∧
    l.take 3 <+: l := by
  have hne : l ≠ [] := by
    intro he; rw [he] at h; exact absurd h (by decide)
  refine ⟨?_, ?_, List.take_prefix 3 l⟩
  · simp only [participants_text, if_neg hne, if_pos h]
  · rw [List.length_take]
    omega

/-- C7 witness: five participants render as the first three names and a
`(+2 more)` suffix. -/
theorem c7_participants_summary_witness :
    3 < (["anna", "ben", "cleo", "dan", "eva"] : List String).length ∧
    participants_text ["anna", "ben", "cleo", "dan", "eva"] =
      "5 participants: anna, ben, cleo (+2 more)" := by
  have h := c7_participants_summary ["anna", "ben", "cleo", "dan", "eva"] (by decide)
  refine ⟨by decide, ?_⟩
  rw [h.1]
  decide

/-! ### C8: the reaction decorator swallows per-emoji failures -/

theorem add_reactions_loop_ok (oracle : Nat → Option ReactionError)
    (emojis : List String) :
    ∀ i : Nat,
      add_reactions_loop oracle i emojis =
        .ok ((List.enumFrom i emojis).map fun p => (p.2, (oracle p.1).isNone)) := by
  induction emojis with
  | nil => intro i; rfl
  | cons e rest ih =>
    intro i
    rw [add_reactions_loop, ih (i + 1)]
    cases ho : oracle i <;> simp [add_reaction, ho, List.enumFrom]

/-- C8: whatever the per-attempt failure pattern, the decorator attempts
every emoji exactly once, in sequence order (the attempt trace lists the
emojis in order, marking which attachments succeeded), a failed attempt is
caught and skipped without stopping the later ones, and the function itself
never propagates an exception to its caller. -/
theorem c8_reactions_attempted_in_order (emojis : List String)
    (oracle : Nat → Option ReactionError) :
    add_reactions_to_message emojis oracle =
      .ok ((List.enumFrom 0 emojis).map fun p => (p.2, (oracle p.1).isNone)) ∧
    ((List.enumFrom 0 emojis).map fun p => (p.2, (oracle p.1).isNone)).map Prod.fst =
      emojis := by
  constructor
  · rw [add_reactions_to_message, add_reactions_loop_ok oracle emojis 0]
  · rw [List.map_map]
    have hc : (Prod.fst ∘ fun p : Nat × String => (p.2, (oracle p.1).isNone)) =
        Prod.snd := rfl
    rw [hc, List.enumFrom_map_snd]

/-! ### C3: the two invocation surfaces -/

/-- C3 (counterexample): the `cotr` verb is exposed on both surfaces, yet
the two handlers build embeds with different titles, so the surfaces do not
produce identical response content for every shared verb. -/
theorem c3_counterexample_cotr_titles :
    slash_cotr_embed ≠ prefix_cotr_embed ∧
    slash_cotr_embed.title ≠ prefix_cotr_embed.title := by
  constructor <;> decide

/-- C3 (amended): for the verbs exposed on both surfaces the handlers build
identical content for `raid`, `wipe` and `susa` (success embed and failure
text alike); for `cotr` the descriptions and colours agree but the titles
differ. -/
theorem c3_surfaces_agree_except_cotr_title :
    (∀ raidData participantEmojis : List (String × String),
      slash_raid_embed raidData participantEmojis =
        prefix_raid_embed raidData participantEmojis) ∧
    slash_wipe_embed = prefix_wipe_embed ∧
    (∀ dogUrl : String, slash_susa_embed dogUrl = prefix_susa_embed dogUrl) ∧
    slash_susa_failure_text = prefix_susa_failure_text ∧
    slash_cotr_embed.description = prefix_cotr_embed.description ∧
    slash_cotr_embed.color = prefix_cotr_embed.color ∧
    slash_cotr_embed.title ≠ prefix_cotr_embed.title :=
  ⟨fun _ _ => rfl, rfl, fun _ => rfl, rfl, rfl, rfl, by decide⟩

/-! ### C4 and C10: the image fetcher -/

/-- What the random.dog parser yields is truthy and already carries an
accepted animated extension. -/
theorem parse_random_dog_spec (data : DogJson) (u : String)
    (h : parse_random_dog data = some u) :
    u ≠ "" ∧ acceptedExtension u = true := by
  obtain ⟨url, msg, st⟩ := data
  cases url with
  | none => exact absurd h (by simp [parse_random_dog])
  | some v =>
    rw [show parse_random_dog ⟨some v, msg, st⟩ =
      (if v ≠ "" ∧ acceptedExtension v = true then some v else none) from rfl] at h
    by_cases hc : v ≠ "" ∧ acceptedExtension v = true
    · rw [if_pos hc] at h
      obtain rfl := Option.some.inj h
      exact hc
    · rw [if_neg hc] at h; exact absurd h (by simp)

/-- A retry pass entered with an already-accepted candidate returns it at
once, consuming no further request. -/
theorem retry_loop_accepted (fuel : Nat) (r : String) (oracle : List GetOutcome)
    (h : acceptedExtension r = true) :
    retry_loop (fuel + 1) (some r) oracle = (.ret (some r), oracle) := by
  simp [retry_loop, h]

/-- `retry_loop_accepted` at the fuel value the code uses. -/
theorem retry_loop_three_accepted (r : String) (oracle : List GetOutcome)
    (h : acceptedExtension r = true) :
    retry_loop 3 (some r) oracle = (.ret (some r), oracle) :=
  retry_loop_accepted 2 r oracle h

/-- A random.dog pass consumes exactly the one scripted GET at the head of
the oracle: the retry loop never issues a re-query, because any candidate
the parser hands it already ends in an accepted extension. -/
theorem try_api_randomDog_tail (oracle : List GetOutcome) :
    (try_api .randomDog oracle).2 = oracle.tail := by
  cases oracle with
  | nil => rfl
  | cons o rest =>
    cases o with
    | exn => rfl
    | resp status data =>
      simp only [try_api, apiParse]
      by_cases hs : status = 200
      · rw [if_pos hs]
        cases hp : parse_random_dog data with
        | none => simp [hp]
        | some r =>
          obtain ⟨hr, hacc⟩ := parse_random_dog_spec data r hp
          simp [hp, hr, retry_loop_three_accepted r rest hacc]
      · rw [if_neg hs]
        rfl

/-- A failing scripted outcome makes either api pass fall through,
consuming just that outcome. -/
theorem try_api_failing (api : DogApi) (o : GetOutcome) (rest : List GetOutcome)
    (h : failingOutcome o = true) : try_api api (o :: rest) = (none, rest) := by
  cases o with
  | exn => rfl
  | resp status data =>
    simp only [failingOutcome] at h
    by_cases hs : status = 200
    · subst hs
      rw [Bool.or_eq_true, decide_eq_true_eq] at h
      rcases h with h | h
      · exact absurd rfl h
      · rw [Bool.and_eq_true] at h
        obtain ⟨h1, h2⟩ := h
        simp only [try_api, if_pos rfl]
        cases api with
        | randomDog =>
          simp only [apiParse]
          cases hp : parse_random_dog data with
          | none => simp [hp]
          | some r =>
            simp only [hp, decide_eq_true_eq] at h1
            simp [hp, if_neg (not_not_intro h1)]
        | dogCeo =>
          simp only [apiParse]
          cases hp : parse_dog_ceo data with
          | none => simp [hp]
          | some r =>
            simp only [hp, decide_eq_true_eq] at h2
            simp [hp, if_neg (not_not_intro h2)]
    · simp only [try_api, if_neg hs]

/-- When every scripted outcome fails, every api order ends at the final
`return None`. -/
theorem fetch_none_of_all_fail (order : List DogApi) :
    ∀ oracle : List GetOutcome, (∀ o ∈ oracle, failingOutcome o = true) →
      get_random_dog_gif order oracle = none := by
  induction order with
  | nil => intro oracle _; rfl
  | cons api apis ih =>
    intro oracle h
    cases oracle with
    | nil =>
      show get_random_dog_gif (api :: apis) [] = none
      have ht : try_api api [] = (none, []) := rfl
      rw [get_random_dog_gif, ht]
      exact ih [] (by intro o ho; cases ho)
    | cons o rest =>
      have ht := try_api_failing api o rest (h o (List.mem_cons_self ..))
      rw [get_random_dog_gif, ht]
      exact ih rest fun o' ho' => h o' (List.mem_cons_of_mem _ ho')

/-- C4 (amended): the random.dog parser only ever yields a URL that already
ends in an accepted animated extension, so the retry loop never re-queries
the endpoint — a random.dog pass consumes exactly one request and a
non-animated payload falls through to the next endpoint immediately; and on
total failure across all endpoints and scripted responses the fetcher
returns an absent result. -/
theorem c4_fetcher_no_requery_total_failure :
    (∀ oracle : List GetOutcome, (try_api .randomDog oracle).2 = oracle.tail) ∧
    (∀ (data : DogJson) (u : String), parse_random_dog data = some u →
      acceptedExtension u = true) ∧
    (∀ (order : List DogApi) (oracle : List GetOutcome),
      (∀ o ∈ oracle, failingOutcome o = true) →
      get_random_dog_gif order oracle = none) :=
  ⟨try_api_randomDog_tail,
    fun data u h => (parse_random_dog_spec data u h).2,
    fetch_none_of_all_fail⟩

/-- C4 witness: a concrete run in which a timeout, a 404 and two rejected
bodies exhaust both endpoints and the fetcher returns `none`. -/
theorem c4_fetcher_witness :
    allFailOracle.all failingOutcome = true ∧
    get_random_dog_gif [DogApi.randomDog, DogApi.dogCeo] allFailOracle = none :=
  ⟨by decide,
    c4_fetcher_no_requery_total_failure.2.2 [DogApi.randomDog, DogApi.dogCeo]
      allFailOracle (by decide)⟩

/-- C4 (counterexample): random.dog answers 200 with a `.jpg` payload while
the next scripted response holds a `.gif` that a re-query would have
obtained; the code performs no re-query — the parser discards the `.jpg`
and the pass falls through at once, handing the second response to dog.ceo,
and the whole fetch returns `none` instead of retrying random.dog up to 3
times for an animated URL. -/
theorem c4_counterexample_no_retry_on_jpg :
    try_api DogApi.randomDog jpgThenGifOracle = (none, [GetOutcome.resp 200 gifJson]) ∧
    get_random_dog_gif [DogApi.randomDog, DogApi.dogCeo] jpgThenGifOracle = none ∧
    parse_random_dog gifJson = some "https://random.dog/b.gif" ∧
    acceptedExtension "https://random.dog/a.jpg" = false :=
  ⟨by decide, by decide, by decide, by decide⟩

/-- C10: the random.dog parser yields a URL only when it ends in `.gif`,
`.mp4` or `.webm`; hence a URL the fetcher obtains from the random.dog pass
— in particular any URL fetched when random.dog is the only endpoint —
always carries an accepted animated extension. -/
theorem c10_randomdog_returns_animated :
    (∀ (data : DogJson) (u : String), parse_random_dog data = some u →
      acceptedExtension u = true) ∧
    (∀ (oracle rest : List GetOutcome) (u : String),
      try_api DogApi.randomDog oracle = (some (some u), rest) →
      acceptedExtension u = true) ∧
    (∀ (oracle : List GetOutcome) (u : String),
      get_random_dog_gif [DogApi.randomDog] oracle = some u →
      acceptedExtension u = true) := by
  have key : ∀ (oracle rest : List GetOutcome) (u : String),
      try_api DogApi.randomDog oracle = (some (some u), rest) →
      acceptedExtension u = true := by
    intro oracle rest u h
    cases oracle with
    | nil => exact absurd h (by simp [try_api])
    | cons o tail =>
      cases o with
      | exn => exact absurd h (by simp [try_api])
      | resp status data =>
        simp only [try_api, apiParse] at h
        by_cases hs : status = 200
        · rw [if_pos hs] at h
          cases hp : parse_random_dog data with
          | none => rw [hp] at h; exact absurd h (by simp)
          | some r =>
            obtain ⟨hr, hacc⟩ := parse_random_dog_spec data r hp
            simp only [hp] at h
            rw [if_pos hr, retry_loop_three_accepted r tail hacc] at h
            injection h with h1 h2
            injection h1 with h1
            injection h1 with h1
            subst h1
            exact hacc
        · rw [if_neg hs] at h; exact absurd h (by simp)
  refine ⟨fun data u h => (parse_random_dog_spec data u h).2, key, ?_⟩
  intro oracle u h
  rcases hta : try_api DogApi.randomDog oracle with ⟨ov, rest⟩
  rw [get_random_dog_gif, hta] at h
  cases ov with
  | none => exact absurd h (by simp [get_random_dog_gif])
  | some v =>
    obtain rfl : v = some u := h
    exact key oracle rest u hta

/-- C10 witness: a `.webm` payload passes the parser and carries an
accepted extension. -/
theorem c10_randomdog_animated_witness :
    parse_random_dog webmJson = some "https://random.dog/c.webm" ∧
    acceptedExtension "https://random.dog/c.webm" = true :=
  ⟨by decide,
    c10_randomdog_returns_animated.1 webmJson "https://random.dog/c.webm" (by decide)⟩

end RaidBot
